import Mathlib

/-!
# Verification of the containerd errdefs error-classification layer

A shallow embedding of the errdefs package: the canonical error-kind
taxonomy (`errors.go`), the duck-typed marker interfaces and membership
testers (`Is*`), the chain resolver (`Resolve`/`firstError` in `http.go`),
the HTTP mapper (`FromHTTP`/`ToHTTP`), the gRPC mappers (`grpc.go` and the
detail-protocol variant in `errgrpc`), and the stack-trace join logic
(`pkg/stack/stack.go`, `join.go`).

Go error values are modelled as trees (`Err`); machine strings are
modelled as `List Char`.
-/

namespace Errdefs

/-- Text of a Go string literal as a list of characters. -/
def str (s : String) : List Char := s.data

/-- The sixteen canonical error kinds declared in `errors.go`
(`ErrUnknown` .. `ErrUnauthenticated`). -/
inductive Kind where
  | unknown
  | invalidArgument
  | notFound
  | alreadyExists
  | permissionDenied
  | resourceExhausted
  | failedPrecondition
  | conflict
  | notModified
  | aborted
  | outOfRange
  | notImplemented
  | internalErr
  | unavailable
  | dataLoss
  | unauthenticated
deriving DecidableEq, Repr, Fintype

/-- The one-method marker interfaces (`unknown`, `invalidParameter`, …,
`cancelled`, `deadlineExceeded`) that external error types may implement
to self-declare membership of a kind or sentinel. -/
inductive Tag where
  | unknownT
  | invalidParameterT
  | notFoundT
  | forbiddenT
  | conflictT
  | notModifiedT
  | notImplementedT
  | systemT
  | unavailableT
  | dataLossT
  | unauthorizedT
  | deadlineExceededT
  | cancelledT
deriving DecidableEq, Repr, Fintype

/-- gRPC status codes used by `grpc.go` / `errgrpc`. -/
inductive Code where
  | canceledC
  | unknownC
  | invalidArgumentC
  | deadlineExceededC
  | notFoundC
  | alreadyExistsC
  | permissionDeniedC
  | resourceExhaustedC
  | failedPreconditionC
  | abortedC
  | outOfRangeC
  | unimplementedC
  | internalC
  | unavailableC
  | dataLossC
  | unauthenticatedC
deriving DecidableEq, Repr, Fintype

/-- The run-time shape of a Go error value, as traversed by this package.

* `kind k` — one of the canonical kind values (`ErrNotFound`, …).
* `canceledErr` / `deadlineErr` — the `context.Canceled` /
  `context.DeadlineExceeded` sentinels.
* `msg s` — an untyped leaf (`errors.New(s)`).
* `tagged s t` — an external leaf whose type implements the marker
  interface `t` and whose `Error()` is `s`.
* `wrap s c` — `fmt.Errorf("%s: %w", s, c)`: a single-cause wrapper whose
  `Error()` renders `s ++ ": " ++ c.Error()`.
* `join cs` — `errors.Join(cs...)`: standard-library join printing every
  member on its own line.
* `joinErrorNode cs` — the package's own `joinError` (`join.go`), whose
  default formatting skips collapsible members.
* `unexpectedStatus n` — the `errUnexpectedStatus{n}` marker produced by
  `FromHTTP` for out-of-table status codes.
* `grpcStatus c m` — the error returned by `status.Error(c, m)`.
* `wrapErrorNode b c` / `wrapErrorsNode b cs` — the `wrapError` /
  `wrapErrors` proxies built by `errgrpc`'s `wrap` during decoding; their
  `Error()` is the embedded base's text, their `Unwrap` exposes `c` / `cs`
  (the embedded base is not reachable by `Unwrap`).
* `collapsed p cs` — `types.CollapsedError(p, cs...)`.
* `stackNode tr` — a `*stack` capture (`pkg/stack`), a collapsible error
  whose verbose rendering is `tr`. -/
inductive Err where
  | kind (k : Kind)
  | canceledErr
  | deadlineErr
  | msg (s : List Char)
  | tagged (s : List Char) (t : Tag)
  | wrap (s : List Char) (c : Err)
  | join (cs : List Err)
  | joinErrorNode (cs : List Err)
  | unexpectedStatus (n : Int)
  | grpcStatus (c : Code) (m : List Char)
  | wrapErrorNode (b : Err) (c : Err)
  | wrapErrorsNode (b : Err) (cs : List Err)
  | collapsed (p : Err) (cs : List Err)
  | stackNode (tr : List Char)

/-- Targets that the source ever passes to `errors.Is`: a canonical kind
value or one of the two context sentinels. -/
inductive Target where
  | kindT (k : Kind)
  | canceledTgt
  | deadlineTgt
deriving DecidableEq, Repr

/-- Go `==` comparison of a tree node against an `errors.Is` target.
Only the canonical kind values and the sentinels ever compare equal to a
target; wrappers, joins and foreign leaves are of different types. -/
def nodeIs (t : Target) : Err → Bool
  | Err.kind k => t = Target.kindT k
  | Err.canceledErr => t = Target.canceledTgt
  | Err.deadlineErr => t = Target.deadlineTgt
  | _ => false

/-- Whether a single node's dynamic type implements the marker interface
`t`.  `tagged` leaves implement exactly their tag; `errUnexpectedStatus`
implements `Unknown()` (its declaration lives in the `internal/cause`
package, modelled from the spec's "Unexpected-Status marker" which is
recovered through the Unknown check of `ToHTTP`). -/
def nodeHasTag (t : Tag) : Err → Bool
  | Err.tagged _ t' => t = t'
  | Err.unexpectedStatus _ => t = Tag.unknownT
  | _ => false

/-- The children a node exposes to `errors.Is`/`errors.As`-style
traversal: `Unwrap() error` yields one child, `Unwrap() []error` yields
the list.  The embedded base of `wrapError`/`wrapErrors` is not a child
(only promoted `Error()` is visible, not an unwrap edge). -/
def unwrapChildren : Err → List Err
  | Err.wrap _ c => [c]
  | Err.join cs => cs
  | Err.joinErrorNode cs => cs
  | Err.wrapErrorNode _ c => [c]
  | Err.wrapErrorsNode _ cs => cs
  | Err.collapsed p cs => p :: cs
  | _ => []

mutual

/-- `true` iff some node of the tree (reached through unwrap edges)
satisfies `p`.  This is the traversal shared by `errors.Is` and the
package's generic `isInterface` walker. -/
def anyNode (p : Err → Bool) : Err → Bool
  | Err.kind k => p (Err.kind k)
  | Err.canceledErr => p Err.canceledErr
  | Err.deadlineErr => p Err.deadlineErr
  | Err.msg s => p (Err.msg s)
  | Err.tagged s t => p (Err.tagged s t)
  | Err.wrap s c => p (Err.wrap s c) || anyNode p c
  | Err.join cs => p (Err.join cs) || anyList p cs
  | Err.joinErrorNode cs => p (Err.joinErrorNode cs) || anyList p cs
  | Err.unexpectedStatus n => p (Err.unexpectedStatus n)
  | Err.grpcStatus c m => p (Err.grpcStatus c m)
  | Err.wrapErrorNode b c => p (Err.wrapErrorNode b c) || anyNode p c
  | Err.wrapErrorsNode b cs => p (Err.wrapErrorsNode b cs) || anyList p cs
  | Err.collapsed q cs => p (Err.collapsed q cs) || (anyNode p q || anyList p cs)
  | Err.stackNode tr => p (Err.stackNode tr)

def anyList (p : Err → Bool) : List Err → Bool
  | [] => false
  | c :: rest => anyNode p c || anyList p rest

end

/-- `errors.Is(err, target)` for the targets used by this package. -/
def errorsIs (t : Target) (e : Err) : Bool := anyNode (nodeIs t) e

/-- `isInterface[T](err)`: does any node in the tree implement marker `T`. -/
def isInterface (t : Tag) (e : Err) : Bool := anyNode (nodeHasTag t) e

/-- `IsUnknown` (`errors.Is(err, ErrUnknown) || isInterface[unknown](err)`). -/
def IsUnknown (e : Err) : Bool :=
  errorsIs (Target.kindT Kind.unknown) e || isInterface Tag.unknownT e

/-- `IsInvalidArgument`. -/
def IsInvalidArgument (e : Err) : Bool :=
  errorsIs (Target.kindT Kind.invalidArgument) e || isInterface Tag.invalidParameterT e

/-- `IsNotFound`. -/
def IsNotFound (e : Err) : Bool :=
  errorsIs (Target.kindT Kind.notFound) e || isInterface Tag.notFoundT e

/-- `IsAlreadyExists` (identity only; no marker interface is defined). -/
def IsAlreadyExists (e : Err) : Bool :=
  errorsIs (Target.kindT Kind.alreadyExists) e

/-- `IsPermissionDenied`. -/
def IsPermissionDenied (e : Err) : Bool :=
  errorsIs (Target.kindT Kind.permissionDenied) e || isInterface Tag.forbiddenT e

/-- `IsResourceExhausted` (identity only). -/
def IsResourceExhausted (e : Err) : Bool :=
  errorsIs (Target.kindT Kind.resourceExhausted) e

/-- `IsFailedPrecondition` (identity only). -/
def IsFailedPrecondition (e : Err) : Bool :=
  errorsIs (Target.kindT Kind.failedPrecondition) e

/-- `IsConflict`. -/
def IsConflict (e : Err) : Bool :=
  errorsIs (Target.kindT Kind.conflict) e || isInterface Tag.conflictT e

/-- `IsNotModified`. -/
def IsNotModified (e : Err) : Bool :=
  errorsIs (Target.kindT Kind.notModified) e || isInterface Tag.notModifiedT e

/-- `IsAborted` (identity only). -/
def IsAborted (e : Err) : Bool :=
  errorsIs (Target.kindT Kind.aborted) e

/-- `IsOutOfRange` (identity only). -/
def IsOutOfRange (e : Err) : Bool :=
  errorsIs (Target.kindT Kind.outOfRange) e

/-- `IsNotImplemented`. -/
def IsNotImplemented (e : Err) : Bool :=
  errorsIs (Target.kindT Kind.notImplemented) e || isInterface Tag.notImplementedT e

/-- `IsInternal`. -/
def IsInternal (e : Err) : Bool :=
  errorsIs (Target.kindT Kind.internalErr) e || isInterface Tag.systemT e

/-- `IsUnavailable`. -/
def IsUnavailable (e : Err) : Bool :=
  errorsIs (Target.kindT Kind.unavailable) e || isInterface Tag.unavailableT e

/-- `IsDataLoss`. -/
def IsDataLoss (e : Err) : Bool :=
  errorsIs (Target.kindT Kind.dataLoss) e || isInterface Tag.dataLossT e

/-- `IsUnauthorized` (matches `ErrUnauthenticated` or the `unauthorized`
marker). -/
def IsUnauthorized (e : Err) : Bool :=
  errorsIs (Target.kindT Kind.unauthenticated) e || isInterface Tag.unauthorizedT e

/-- `IsCanceled`. -/
def IsCanceled (e : Err) : Bool :=
  errorsIs Target.canceledTgt e || isInterface Tag.cancelledT e

/-- `IsDeadlineExceeded`. -/
def IsDeadlineExceeded (e : Err) : Bool :=
  errorsIs Target.deadlineTgt e || isInterface Tag.deadlineExceededT e

/-- The canonical value returned by `firstError` when a node implements
marker `t` (e.g. `case notFound: return ErrNotFound`). -/
def tagTarget : Tag → Err
  | Tag.unknownT => Err.kind Kind.unknown
  | Tag.invalidParameterT => Err.kind Kind.invalidArgument
  | Tag.notFoundT => Err.kind Kind.notFound
  | Tag.forbiddenT => Err.kind Kind.permissionDenied
  | Tag.conflictT => Err.kind Kind.conflict
  | Tag.notModifiedT => Err.kind Kind.notModified
  | Tag.notImplementedT => Err.kind Kind.notImplemented
  | Tag.systemT => Err.kind Kind.internalErr
  | Tag.unavailableT => Err.kind Kind.unavailable
  | Tag.dataLossT => Err.kind Kind.dataLoss
  | Tag.unauthorizedT => Err.kind Kind.unauthenticated
  | Tag.deadlineExceededT => Err.deadlineErr
  | Tag.cancelledT => Err.canceledErr

mutual

/-- `firstError` (`http.go` lines 149–206): depth-first search for the
first node that is a sentinel, a canonical kind value, or a marker
implementor; `Unwrap() error` is followed in the enclosing loop before
the `Unwrap() []error` case, joined children are scanned left to right,
unmatched leaves yield `none`. -/
def firstError : Err → Option Err
  | Err.canceledErr => some Err.canceledErr
  | Err.deadlineErr => some Err.deadlineErr
  | Err.kind k => some (Err.kind k)
  | Err.tagged _ t => some (tagTarget t)
  | Err.unexpectedStatus _ => some (Err.kind Kind.unknown)
  | Err.wrap _ c => firstError c
  | Err.msg _ => none
  | Err.grpcStatus _ _ => none
  | Err.join cs => firstJoin cs
  | Err.joinErrorNode cs => firstJoin cs
  | Err.wrapErrorNode _ c => firstError c
  | Err.wrapErrorsNode _ cs => firstJoin cs
  | Err.collapsed p cs =>
    match firstError p with
    | some v => some v
    | none => firstJoin cs
  | Err.stackNode _ => none

/-- The `Unwrap() []error` arm of `firstError`: return the first non-nil
resolution among the joined children, in order. -/
def firstJoin : List Err → Option Err
  | [] => none
  | c :: rest =>
    match firstError c with
    | some v => some v
    | none => firstJoin rest

end

/-- `Resolve` (`http.go` lines 138–147): `nil` maps to `nil`; otherwise
the result of the depth-first search, with a failed search escalated to
`ErrUnknown`. -/
def Resolve : Option Err → Option Err
  | none => none
  | some e =>
    match firstError e with
    | some v => some v
    | none => some (Err.kind Kind.unknown)

/-! ## String helpers (Go `strings` / `strconv` operations) -/

/-- `strings.HasSuffix`. -/
def hasSuffix (s suf : List Char) : Bool := suf.isSuffixOf s

/-- `strings.TrimSuffix`. -/
def trimSuffix (s suf : List Char) : List Char :=
  if hasSuffix s suf then s.take (s.length - suf.length) else s

/-- `strings.LastIndex(s, pat)`: the greatest index at which `pat` occurs
in `s`, or `none` when it does not occur (Go returns -1). -/
def lastIndex (s pat : List Char) : Option Nat :=
  ((List.range (s.length + 1)).filter (fun i => pat.isPrefixOf (s.drop i))).max?

/-- Digits-to-number accumulator for `atoi`. -/
def digitsToNat : List Char → Nat
  | [] => 0
  | c :: rest => (c.toNat - 48) * 10 ^ rest.length + digitsToNat rest

/-- `strconv.Atoi`: an optional sign followed by one or more digits;
anything else fails. -/
def atoi : List Char → Option Int
  | [] => none
  | c :: rest =>
    if c = '-' ∨ c = '+' then
      if rest ≠ [] ∧ rest.all Char.isDigit then
        some (if c = '-' then -(digitsToNat rest : Int) else (digitsToNat rest : Int))
      else none
    else if (c :: rest).all Char.isDigit then some (digitsToNat (c :: rest) : Int)
    else none

/-! ## Error rendering -/

/-- Newline-joined member texts, as printed by `errors.Join` and by
`joinError.Format` (one `Fprintln` between consecutive members). -/
def joinLines (ls : List (List Char)) : List Char :=
  List.intercalate (str "\x0a") ls

/-- `types.CollapsibleError`: only the `*stack` capture implements the
`CollapseError()` marker among the modelled types. -/
def isCollapsible : Err → Bool
  | Err.stackNode _ => true
  | _ => false

/-- `Error()` of a canonical kind value, from the `switch` in
`errors.go` lines 60–95.  Note the source renders `ErrDataLoss` as
`"unauthenticated"`. -/
def kindText : Kind → List Char
  | Kind.invalidArgument => str "invalid argument"
  | Kind.notFound => str "not found"
  | Kind.alreadyExists => str "already exists"
  | Kind.permissionDenied => str "permission denied"
  | Kind.resourceExhausted => str "resource exhausted"
  | Kind.failedPrecondition => str "failed precondition"
  | Kind.conflict => str "conflict"
  | Kind.notModified => str "not modified"
  | Kind.aborted => str "aborted"
  | Kind.outOfRange => str "out of range"
  | Kind.notImplemented => str "not implemented"
  | Kind.internalErr => str "internal"
  | Kind.unavailable => str "unavailable"
  | Kind.dataLoss => str "unauthenticated"
  | Kind.unauthenticated => str "unauthenticated"
  | Kind.unknown => str "unknown"

/-- Rendering of a gRPC code name (`codes.Code.String`), used only inside
the `status.Error` text. -/
def codeText : Code → List Char
  | Code.canceledC => str "Canceled"
  | Code.unknownC => str "Unknown"
  | Code.invalidArgumentC => str "InvalidArgument"
  | Code.deadlineExceededC => str "DeadlineExceeded"
  | Code.notFoundC => str "NotFound"
  | Code.alreadyExistsC => str "AlreadyExists"
  | Code.permissionDeniedC => str "PermissionDenied"
  | Code.resourceExhaustedC => str "ResourceExhausted"
  | Code.failedPreconditionC => str "FailedPrecondition"
  | Code.abortedC => str "Aborted"
  | Code.outOfRangeC => str "OutOfRange"
  | Code.unimplementedC => str "Unimplemented"
  | Code.internalC => str "Internal"
  | Code.unavailableC => str "Unavailable"
  | Code.dataLossC => str "DataLoss"
  | Code.unauthenticatedC => str "Unauthenticated"

/-- The `"unexpected status "` message fragment of the Unexpected-Status
marker. -/
def uspText : List Char := str "unexpected status "

mutual

/-- The `Error()` string of a tree.  `wrap` renders
`"<msg>: <child>"` (`fmt.Errorf("%s: %w", …)`); `errors.Join` prints
every member, while the package's `joinError.Format` (non-verbose `%v`)
skips collapsible members; `wrapError`/`wrapErrors` and
`types.CollapsedError` render their embedded base only. -/
def errStr : Err → List Char
  | Err.kind k => kindText k
  | Err.canceledErr => str "context canceled"
  | Err.deadlineErr => str "context deadline exceeded"
  | Err.msg s => s
  | Err.tagged s _ => s
  | Err.wrap s c => s ++ str ": " ++ errStr c
  | Err.join cs => joinLines (errStrList cs)
  | Err.joinErrorNode cs => joinLines (errStrListNC cs)
  | Err.unexpectedStatus n => uspText ++ str (toString n)
  | Err.grpcStatus c m =>
    str "rpc error: code = " ++ codeText c ++ str " desc = " ++ m
  | Err.wrapErrorNode b _ => errStr b
  | Err.wrapErrorsNode b _ => errStr b
  | Err.collapsed p _ => errStr p
  | Err.stackNode tr => tr

def errStrList : List Err → List (List Char)
  | [] => []
  | c :: rest => errStr c :: errStrList rest

/-- Member texts of `joinError.Format` under the default verb: the loop
`continue`s past members implementing `types.CollapsibleError`
(`join.go` lines 54–70). -/
def errStrListNC : List Err → List (List Char)
  | [] => []
  | c :: rest =>
    if isCollapsible c then errStrListNC rest else errStr c :: errStrListNC rest

end

/-! ## HTTP mapper (`http.go`) -/

/-- `FromHTTP` (`http.go` lines 25–52): the fixed table of eleven status
codes, defaulting to `errUnexpectedStatus{statusCode}`. -/
def FromHTTP (statusCode : Int) : Err :=
  if statusCode = 404 then Err.kind Kind.notFound
  else if statusCode = 400 then Err.kind Kind.invalidArgument
  else if statusCode = 409 then Err.kind Kind.conflict
  else if statusCode = 412 then Err.kind Kind.failedPrecondition
  else if statusCode = 401 then Err.kind Kind.unauthenticated
  else if statusCode = 403 then Err.kind Kind.permissionDenied
  else if statusCode = 304 then Err.kind Kind.notModified
  else if statusCode = 429 then Err.kind Kind.resourceExhausted
  else if statusCode = 500 then Err.kind Kind.internalErr
  else if statusCode = 501 then Err.kind Kind.notImplemented
  else if statusCode = 503 then Err.kind Kind.unavailable
  else Err.unexpectedStatus statusCode

mutual

/-- The `errors.As(err, &unexpected)` search of `ToHTTP`: first
`errUnexpectedStatus` node in depth-first unwrap order. -/
def asUnexpected : Err → Option Int
  | Err.unexpectedStatus n => some n
  | Err.wrap _ c => asUnexpected c
  | Err.join cs => asUnexpectedList cs
  | Err.joinErrorNode cs => asUnexpectedList cs
  | Err.wrapErrorNode _ c => asUnexpected c
  | Err.wrapErrorsNode _ cs => asUnexpectedList cs
  | Err.collapsed p cs =>
    match asUnexpected p with
    | some n => some n
    | none => asUnexpectedList cs
  | _ => none

/-- List arm of `asUnexpected`. -/
def asUnexpectedList : List Err → Option Int
  | [] => none
  | c :: rest =>
    match asUnexpected c with
    | some n => some n
    | none => asUnexpectedList rest

end

/-- `ToHTTP` (`http.go` lines 55–88): the fixed priority chain of
membership tests, with recovery of a stored Unexpected-Status marker in
the Unknown branch and a default of 500. -/
def ToHTTP (e : Err) : Int :=
  if IsNotFound e then 404
  else if IsInvalidArgument e then 400
  else if IsConflict e then 409
  else if IsNotModified e then 304
  else if IsFailedPrecondition e then 412
  else if IsUnauthorized e then 401
  else if IsPermissionDenied e then 403
  else if IsResourceExhausted e then 429
  else if IsInternal e then 500
  else if IsNotImplemented e then 501
  else if IsUnavailable e then 503
  else if IsUnknown e then
    match asUnexpected e with
    | some s => if 200 ≤ s ∧ s < 600 then s else 500
    | none => 500
  else 500

/-! ## gRPC mapper (`grpc.go`) -/

mutual

/-- `errors.As`-style search for a node carrying a gRPC status, used by
`status.FromError` when the error wraps a status. -/
def asGrpcCode : Err → Option (Code × List Char)
  | Err.grpcStatus c m => some (c, m)
  | Err.wrap _ c => asGrpcCode c
  | Err.join cs => asGrpcCodeList cs
  | Err.joinErrorNode cs => asGrpcCodeList cs
  | Err.wrapErrorNode _ c => asGrpcCode c
  | Err.wrapErrorsNode _ cs => asGrpcCodeList cs
  | Err.collapsed p cs =>
    match asGrpcCode p with
    | some r => some r
    | none => asGrpcCodeList cs
  | _ => none

/-- List arm of `asGrpcCode`. -/
def asGrpcCodeList : List Err → Option (Code × List Char)
  | [] => none
  | c :: rest =>
    match asGrpcCode c with
    | some r => some r
    | none => asGrpcCodeList rest

end

/-- `status.FromError`: a direct status error yields its own code and
message; an error wrapping a status yields the inner code with the outer
`Error()` text; anything else is not a status (`ok == false`). -/
def statusFromError : Err → Option (Code × List Char)
  | Err.grpcStatus c m => some (c, m)
  | e =>
    match asGrpcCode e with
    | some r => some (r.1, errStr e)
    | none => none

/-- `isGRPCError`. -/
def isGRPCError (e : Err) : Bool := (statusFromError e).isSome

/-- `code(err)`: the status code, or `codes.Unknown` for non-statuses. -/
def codeOf (e : Err) : Code :=
  match statusFromError e with
  | some r => r.1
  | none => Code.unknownC

/-- `errDesc(err)`: the status message, or `err.Error()` for
non-statuses. -/
def errDesc (e : Err) : List Char :=
  match statusFromError e with
  | some r => r.2
  | none => errStr e

/-- `ToGRPC` (`grpc.go` lines 37–83): statuses pass through; otherwise
the fixed priority chain of membership tests chooses the code, the
message is `err.Error()`, and an unmapped error is returned unchanged. -/
def ToGRPC : Option Err → Option Err
  | none => none
  | some e =>
    if isGRPCError e then some e
    else if IsInvalidArgument e then some (Err.grpcStatus Code.invalidArgumentC (errStr e))
    else if IsNotFound e then some (Err.grpcStatus Code.notFoundC (errStr e))
    else if IsAlreadyExists e then some (Err.grpcStatus Code.alreadyExistsC (errStr e))
    else if IsFailedPrecondition e || IsConflict e || IsNotModified e then
      some (Err.grpcStatus Code.failedPreconditionC (errStr e))
    else if IsUnavailable e then some (Err.grpcStatus Code.unavailableC (errStr e))
    else if IsNotImplemented e then some (Err.grpcStatus Code.unimplementedC (errStr e))
    else if IsCanceled e then some (Err.grpcStatus Code.canceledC (errStr e))
    else if IsDeadlineExceeded e then some (Err.grpcStatus Code.deadlineExceededC (errStr e))
    else if IsUnauthorized e then some (Err.grpcStatus Code.unauthenticatedC (errStr e))
    else if IsPermissionDenied e then some (Err.grpcStatus Code.permissionDeniedC (errStr e))
    else if IsInternal e then some (Err.grpcStatus Code.internalC (errStr e))
    else if IsDataLoss e then some (Err.grpcStatus Code.dataLossC (errStr e))
    else if IsAborted e then some (Err.grpcStatus Code.abortedC (errStr e))
    else if IsOutOfRange e then some (Err.grpcStatus Code.outOfRangeC (errStr e))
    else if IsResourceExhausted e then some (Err.grpcStatus Code.resourceExhaustedC (errStr e))
    else if IsUnknown e then some (Err.grpcStatus Code.unknownC (errStr e))
    else some e

/-- Modelled from the spec: the Unexpected-Status marker of the missing
`internal/cause` package — a leaf carrying a raw numeric status,
rendered `"unexpected status <n>"` and implementing the `Unknown()`
marker (see `nodeHasTag`). -/
def unexpectedStatusError (n : Int) : Err := Err.unexpectedStatus n

/-- The `strings.LastIndex`/`strconv.Atoi` recovery of an
Unexpected-Status marker in `FromGRPC`'s default branch
(`grpc.go` lines 141–145). -/
def unexpectedRecover (desc : List Char) : Option Int :=
  match lastIndex desc uspText with
  | some idx =>
    if 0 < idx then
      match atoi (desc.drop (idx + uspText.length)) with
      | some s => if 200 ≤ s ∧ s < 600 then some s else none
      | none => none
    else none
  | none => none

/-- The error-class (`cls`) chosen by `FromGRPC` from the status code and
message (`grpc.go` lines 103–149), including the
conflict/not-modified message-suffix disambiguation for the shared
FailedPrecondition code and the Unexpected-Status recovery in the
default branch. -/
def fromGRPCcls (c : Code) (desc : List Char) : Err :=
  match c with
  | Code.invalidArgumentC => Err.kind Kind.invalidArgument
  | Code.alreadyExistsC => Err.kind Kind.alreadyExists
  | Code.notFoundC => Err.kind Kind.notFound
  | Code.unavailableC => Err.kind Kind.unavailable
  | Code.failedPreconditionC =>
    if desc = kindText Kind.conflict ∨ hasSuffix desc (str ": " ++ kindText Kind.conflict) then
      Err.kind Kind.conflict
    else if desc = kindText Kind.notModified ∨
        hasSuffix desc (str ": " ++ kindText Kind.notModified) then
      Err.kind Kind.notModified
    else Err.kind Kind.failedPrecondition
  | Code.unimplementedC => Err.kind Kind.notImplemented
  | Code.canceledC => Err.canceledErr
  | Code.deadlineExceededC => Err.deadlineErr
  | Code.abortedC => Err.kind Kind.aborted
  | Code.unauthenticatedC => Err.kind Kind.unauthenticated
  | Code.permissionDeniedC => Err.kind Kind.permissionDenied
  | Code.internalC => Err.kind Kind.internalErr
  | Code.dataLossC => Err.kind Kind.dataLoss
  | Code.outOfRangeC => Err.kind Kind.outOfRange
  | Code.resourceExhaustedC => Err.kind Kind.resourceExhausted
  | Code.unknownC =>
    match unexpectedRecover desc with
    | some s => unexpectedStatusError s
    | none => Err.kind Kind.unknown

/-- `rebaseMessage` (`grpc.go` lines 166–173): strip a trailing
repetition of the class text from the description. -/
def rebaseMessage (cls : Err) (desc : List Char) : List Char :=
  if desc = errStr cls then [] else trimSuffix desc (str ": " ++ errStr cls)

/-- `FromGRPC` (`grpc.go` lines 94–159): choose the class from the
status code and message, then re-wrap the rebased message around it
(or return the bare class when the message is empty). -/
def FromGRPC : Option Err → Option Err
  | none => none
  | some e =>
    let desc := errDesc e
    let cls := fromGRPCcls (codeOf e) desc
    let m := rebaseMessage cls desc
    some (if m.isEmpty then cls else Err.wrap m cls)

/-! ## Detail protocol (`errgrpc`, `src/unnamed/part_002` lines 250–473) -/

/-- The RPC status envelope: code, message, and ordered status details.
Every detail the encoder produces is itself a marshalled `spb.Status`,
so details are modelled directly as nested envelopes. -/
inductive Env where
  | mk (code : Code) (message : List Char) (details : List Env)

/-- The details list of an envelope. -/
def Env.details : Env → List Env
  | Env.mk _ _ ds => ds

/-- The message of an envelope. -/
def Env.message : Env → List Char
  | Env.mk _ m _ => m

/-- The code of an envelope. -/
def Env.code : Env → Code
  | Env.mk c _ _ => c

/-- `errorCode` (`part_002` lines 310–349): resolve the tree first, then
run the fixed membership-test chain on the resolved value. -/
def errorCode (e : Err) : Code :=
  let r := (firstError e).getD (Err.kind Kind.unknown)
  if IsInvalidArgument r then Code.invalidArgumentC
  else if IsNotFound r then Code.notFoundC
  else if IsAlreadyExists r then Code.alreadyExistsC
  else if IsFailedPrecondition r || IsConflict r || IsNotModified r then
    Code.failedPreconditionC
  else if IsUnavailable r then Code.unavailableC
  else if IsNotImplemented r then Code.unimplementedC
  else if IsCanceled r then Code.canceledC
  else if IsDeadlineExceeded r then Code.deadlineExceededC
  else if IsUnauthorized r then Code.unauthenticatedC
  else if IsPermissionDenied r then Code.permissionDeniedC
  else if IsInternal r then Code.internalC
  else if IsDataLoss r then Code.dataLossC
  else if IsAborted r then Code.abortedC
  else if IsOutOfRange r then Code.outOfRangeC
  else if IsResourceExhausted r then Code.resourceExhaustedC
  else Code.unknownC

mutual

/-- `withDetails` (`part_002` lines 263–308) applied to a status whose
code and message are already set: detail #0 is `anypb.New(p)` — a
marshalled snapshot of the status itself (code and message, no details
yet), not a codec serialization of the error — followed by one nested
envelope per unwrapped child, in order. -/
def encodeEnv (code : Code) (e : Err) : Env :=
  Env.mk code (errStr e) (Env.mk code (errStr e) [] :: encodeKids e)

/-- The `Unwrap() error` / `Unwrap() []error` switch of `withDetails`:
the direct children serialized as nested envelopes with
`Code: codes.Unknown`. -/
def encodeKids : Err → List Env
  | Err.wrap _ c => [encodeEnv Code.unknownC c]
  | Err.join cs => encodeChildren cs
  | Err.joinErrorNode cs => encodeChildren cs
  | Err.wrapErrorNode _ c => [encodeEnv Code.unknownC c]
  | Err.wrapErrorsNode _ cs => encodeChildren cs
  | Err.collapsed p cs => encodeEnv Code.unknownC p :: encodeChildren cs
  | _ => []

/-- List arm of `encodeKids`. -/
def encodeChildren : List Err → List Env
  | [] => []
  | c :: rest => encodeEnv Code.unknownC c :: encodeChildren rest

end

/-- The detail-protocol `ToGRPC` (`part_002` lines 250–261) on a non-nil,
non-status error: the envelope with the resolved code, `err.Error()` as
message, and the detail list built by `withDetails`. -/
def toGRPCProto (e : Err) : Env := encodeEnv (errorCode e) e

/-- `wrap` (`part_002` lines 414–443): no modelled type implements
`errorWrapper`, so one remaining child becomes a `wrapError` proxy and
two or more become a `wrapErrors` proxy.  The source constructs
`wrapErrors{error: parent}` without setting its `errs` field, so the
proxy's `Unwrap() []error` exposes no children. -/
def wrapFn (parent : Err) : List Err → Err
  | [] => parent
  | [e] => Err.wrapErrorNode parent e
  | _ :: _ :: _ => Err.wrapErrorsNode parent []

mutual

/-- `fromGRPCProto` (`part_002` lines 373–408): the base is
`errors.New(p.Message)`; detail #0 unmarshals to a `*spb.Status`, which
does not implement `error`, so the type assertion `v.(error)` fails and
the message-only base is kept; with more than one detail the remaining
details are decoded recursively and re-wrapped via `wrap`. -/
def fromGRPCProto : Env → Err
  | Env.mk _ m details =>
    match details with
    | [] => Err.msg m
    | _ :: rest =>
      match rest with
      | [] => Err.msg m
      | _ :: _ => wrapFn (Err.msg m) (decodeList rest)

/-- Decoding of the remaining details, each a nested status envelope. -/
def decodeList : List Env → List Err
  | [] => []
  | d :: ds => fromGRPCProto d :: decodeList ds

end

/-! ## Stack joins (`pkg/stack/stack.go`, `join.go`) -/

/-- `hasLocalStackTrace` (`pkg/stack/stack.go` lines 258–282): does the
tree contain a `*stack` capture, searching through both unwrap shapes. -/
def hasLocalStackTrace (e : Err) : Bool :=
  anyNode (fun n => match n with | Err.stackNode _ => true | _ => false) e

/-- Modelled from the spec: `types.CollapsedError` of the missing
`pkg/internal/types` package — a node rendering only its primary
member's text, with the collapsible members reachable through
`Unwrap() []error` and shown only under verbose formatting. -/
def CollapsedError (p : Err) (cs : List Err) : Err := Err.collapsed p cs

/-- `joinErrors` (`pkg/stack/stack.go` lines 218–256).  `freshTrace` is
the trace that `callers(4)` would capture if a new stack error is
attached.  Collapsible members are split out of the primary list; when
no non-collapsible error remains the result is nil; a capture is
appended unless one is already present; two or more primary errors are
joined with `errors.Join`. -/
def joinErrors (freshTrace : List Char) (errs : List (Option Err)) : Option Err :=
  let nonNil := errs.filterMap id
  let filtered := nonNil.filter (fun e => !isCollapsible e)
  let collapsible := nonNil.filter isCollapsible
  let hasStack := nonNil.any hasLocalStackTrace
  match filtered with
  | [] => none
  | f :: fs =>
    let collapsible :=
      if hasStack then collapsible else collapsible ++ [Err.stackNode freshTrace]
    let primary := match fs with | [] => f | _ :: _ => Err.join (f :: fs)
    some (match collapsible with
      | [] => primary
      | _ :: _ => CollapsedError primary collapsible)

/-- `stack.Join` (`pkg/stack/stack.go` lines 207–209). -/
def stackJoin (freshTrace : List Char) (errs : List (Option Err)) : Option Err :=
  joinErrors freshTrace errs

/-- The gRPC code that `ToGRPC`'s membership chain assigns to each
canonical kind (FailedPrecondition, Conflict and NotModified share one
code). -/
def grpcCodeOfKind : Kind → Code
  | Kind.unknown => Code.unknownC
  | Kind.invalidArgument => Code.invalidArgumentC
  | Kind.notFound => Code.notFoundC
  | Kind.alreadyExists => Code.alreadyExistsC
  | Kind.permissionDenied => Code.permissionDeniedC
  | Kind.resourceExhausted => Code.resourceExhaustedC
  | Kind.failedPrecondition => Code.failedPreconditionC
  | Kind.conflict => Code.failedPreconditionC
  | Kind.notModified => Code.failedPreconditionC
  | Kind.aborted => Code.abortedC
  | Kind.outOfRange => Code.outOfRangeC
  | Kind.notImplemented => Code.unimplementedC
  | Kind.internalErr => Code.internalC
  | Kind.unavailable => Code.unavailableC
  | Kind.dataLoss => Code.dataLossC
  | Kind.unauthenticated => Code.unauthenticatedC

/-- The membership tester belonging to each canonical kind. -/
def kindIs : Kind → Err → Bool
  | Kind.unknown => IsUnknown
  | Kind.invalidArgument => IsInvalidArgument
  | Kind.notFound => IsNotFound
  | Kind.alreadyExists => IsAlreadyExists
  | Kind.permissionDenied => IsPermissionDenied
  | Kind.resourceExhausted => IsResourceExhausted
  | Kind.failedPrecondition => IsFailedPrecondition
  | Kind.conflict => IsConflict
  | Kind.notModified => IsNotModified
  | Kind.aborted => IsAborted
  | Kind.outOfRange => IsOutOfRange
  | Kind.notImplemented => IsNotImplemented
  | Kind.internalErr => IsInternal
  | Kind.unavailable => IsUnavailable
  | Kind.dataLoss => IsDataLoss
  | Kind.unauthenticated => IsUnauthorized

/-- The concrete multi-join input for the detail-protocol round trip. -/
def multiJoinCex : Err :=
  Err.join [Err.kind Kind.permissionDenied, Err.kind Kind.dataLoss, Err.kind Kind.conflict]

/-! ## Helper lemmas -/

/-- A node that `firstError` can return: a canonical kind value or one of
the two context sentinels. -/
def isCanonicalResult : Err → Bool
  | Err.kind _ => true
  | Err.canceledErr => true
  | Err.deadlineErr => true
  | _ => false

/-- A node that matches the taxonomy by identity, capability tag or
sentinel value — the nodes at which the depth-first search stops. -/
def nodeMatches : Err → Bool
  | Err.kind _ => true
  | Err.canceledErr => true
  | Err.deadlineErr => true
  | Err.tagged _ _ => true
  | Err.unexpectedStatus _ => true
  | _ => false

/-- Whether any node of the tree matches the taxonomy. -/
def hasMatch (e : Err) : Bool := anyNode nodeMatches e

theorem firstJoin_eq_some {cs : List Err} {v : Err} (h : firstJoin cs = some v) :
    ∃ c ∈ cs, firstError c = some v := by
  induction cs with
  | nil => simp [firstJoin] at h
  | cons c rest ih =>
    rw [firstJoin] at h
    cases hc : firstError c with
    | some w =>
      rw [hc] at h
      exact ⟨c, List.mem_cons_self c rest, by simpa [hc] using h⟩
    | none =>
      rw [hc] at h
      obtain ⟨d, hd, hfd⟩ := ih h
      exact ⟨d, List.mem_cons_of_mem _ hd, hfd⟩

theorem firstJoin_of_none {cs : List Err} (h : ∀ c ∈ cs, firstError c = none) :
    firstJoin cs = none := by
  induction cs with
  | nil => rfl
  | cons c rest ih =>
    rw [firstJoin, h c (List.mem_cons_self c rest)]
    exact ih fun d hd => h d (List.mem_cons_of_mem _ hd)

theorem firstJoin_append_of_none {cs₁ : List Err} (h : ∀ c ∈ cs₁, firstError c = none)
    {c v : Err} (hc : firstError c = some v) (cs₂ : List Err) :
    firstJoin (cs₁ ++ c :: cs₂) = some v := by
  induction cs₁ with
  | nil => rw [List.nil_append, firstJoin, hc]
  | cons x rest ih =>
    rw [List.cons_append, firstJoin, h x (List.mem_cons_self x rest)]
    exact ih fun d hd => h d (List.mem_cons_of_mem _ hd)

theorem anyList_eq_false {p : Err → Bool} {cs : List Err} (h : anyList p cs = false) :
    ∀ c ∈ cs, anyNode p c = false := by
  induction cs with
  | nil => simp
  | cons c rest ih =>
    rw [anyList, Bool.or_eq_false_iff] at h
    intro d hd
    rcases List.mem_cons.mp hd with rfl | hd
    · exact h.1
    · exact ih h.2 d hd

theorem firstError_canonical_bounded :
    ∀ (N : Nat) (e : Err), sizeOf e < N → ∀ v, firstError e = some v →
      isCanonicalResult v = true := by
  intro N
  induction N with
  | zero => exact fun e he => absurd he (Nat.not_lt_zero _)
  | succ N ih =>
    intro e he v hv
    cases e with
    | kind k => rw [firstError] at hv; cases hv; rfl
    | canceledErr => rw [firstError] at hv; cases hv; rfl
    | deadlineErr => rw [firstError] at hv; cases hv; rfl
    | msg s => rw [firstError] at hv; cases hv
    | tagged s t =>
      rw [firstError] at hv; cases hv; cases t <;> rfl
    | unexpectedStatus n => rw [firstError] at hv; cases hv; rfl
    | grpcStatus c m => rw [firstError] at hv; cases hv
    | stackNode tr => rw [firstError] at hv; cases hv
    | wrap s c =>
      rw [firstError] at hv
      refine ih c ?_ v hv
      have : sizeOf c < sizeOf (Err.wrap s c) := by simp
      omega
    | wrapErrorNode b c =>
      rw [firstError] at hv
      refine ih c ?_ v hv
      have : sizeOf c < sizeOf (Err.wrapErrorNode b c) := by simp
      omega
    | join cs =>
      rw [firstError] at hv
      obtain ⟨c, hmem, hc⟩ := firstJoin_eq_some hv
      refine ih c ?_ v hc
      have h1 : sizeOf c < sizeOf cs := List.sizeOf_lt_of_mem hmem
      have h2 : sizeOf cs < sizeOf (Err.join cs) := by simp
      omega
    | joinErrorNode cs =>
      rw [firstError] at hv
      obtain ⟨c, hmem, hc⟩ := firstJoin_eq_some hv
      refine ih c ?_ v hc
      have h1 : sizeOf c < sizeOf cs := List.sizeOf_lt_of_mem hmem
      have h2 : sizeOf cs < sizeOf (Err.joinErrorNode cs) := by simp
      omega
    | wrapErrorsNode b cs =>
      rw [firstError] at hv
      obtain ⟨c, hmem, hc⟩ := firstJoin_eq_some hv
      refine ih c ?_ v hc
      have h1 : sizeOf c < sizeOf cs := List.sizeOf_lt_of_mem hmem
      have h2 : sizeOf cs < sizeOf (Err.wrapErrorsNode b cs) := by simp
      omega
    | collapsed p cs =>
      rw [firstError] at hv
      cases hp : firstError p with
      | some w =>
        rw [hp] at hv
        have hw : w = v := by injection hv
        subst hw
        refine ih p ?_ _ hp
        have : sizeOf p < sizeOf (Err.collapsed p cs) := by simp; omega
        omega
      | none =>
        rw [hp] at hv
        obtain ⟨c, hmem, hc⟩ := firstJoin_eq_some hv
        refine ih c ?_ v hc
        have h1 : sizeOf c < sizeOf cs := List.sizeOf_lt_of_mem hmem
        have h2 : sizeOf cs < sizeOf (Err.collapsed p cs) := by simp
        omega

theorem firstError_canonical {e v : Err} (h : firstError e = some v) :
    isCanonicalResult v = true :=
  firstError_canonical_bounded (sizeOf e + 1) e (by omega) v h

theorem firstError_of_no_match_bounded :
    ∀ (N : Nat) (e : Err), sizeOf e < N → hasMatch e = false → firstError e = none := by
  intro N
  induction N with
  | zero => exact fun e he => absurd he (Nat.not_lt_zero _)
  | succ N ih =>
    intro e he hm
    cases e with
    | kind k => rw [hasMatch, anyNode] at hm; cases hm
    | canceledErr => rw [hasMatch, anyNode] at hm; cases hm
    | deadlineErr => rw [hasMatch, anyNode] at hm; cases hm
    | tagged s t => rw [hasMatch, anyNode] at hm; cases hm
    | unexpectedStatus n => rw [hasMatch, anyNode] at hm; cases hm
    | msg s => rfl
    | grpcStatus c m => rfl
    | stackNode tr => rfl
    | wrap s c =>
      rw [hasMatch, anyNode, Bool.or_eq_false_iff] at hm
      rw [firstError]
      refine ih c ?_ hm.2
      have : sizeOf c < sizeOf (Err.wrap s c) := by simp
      omega
    | wrapErrorNode b c =>
      rw [hasMatch, anyNode, Bool.or_eq_false_iff] at hm
      rw [firstError]
      refine ih c ?_ hm.2
      have : sizeOf c < sizeOf (Err.wrapErrorNode b c) := by simp
      omega
    | join cs =>
      rw [hasMatch, anyNode, Bool.or_eq_false_iff] at hm
      rw [firstError]
      refine firstJoin_of_none fun c hc => ?_
      have h1 : sizeOf c < sizeOf cs := List.sizeOf_lt_of_mem hc
      have h2 : sizeOf cs < sizeOf (Err.join cs) := by simp
      exact ih c (by omega) (anyList_eq_false hm.2 c hc)
    | joinErrorNode cs =>
      rw [hasMatch, anyNode, Bool.or_eq_false_iff] at hm
      rw [firstError]
      refine firstJoin_of_none fun c hc => ?_
      have h1 : sizeOf c < sizeOf cs := List.sizeOf_lt_of_mem hc
      have h2 : sizeOf cs < sizeOf (Err.joinErrorNode cs) := by simp
      exact ih c (by omega) (anyList_eq_false hm.2 c hc)
    | wrapErrorsNode b cs =>
      rw [hasMatch, anyNode, Bool.or_eq_false_iff] at hm
      rw [firstError]
      refine firstJoin_of_none fun c hc => ?_
      have h1 : sizeOf c < sizeOf cs := List.sizeOf_lt_of_mem hc
      have h2 : sizeOf cs < sizeOf (Err.wrapErrorsNode b cs) := by simp
      exact ih c (by omega) (anyList_eq_false hm.2 c hc)
    | collapsed p cs =>
      rw [hasMatch, anyNode, Bool.or_eq_false_iff] at hm
      have hm2 := hm.2
      rw [Bool.or_eq_false_iff] at hm2
      rw [firstError]
      have hp : firstError p = none := by
        refine ih p ?_ hm2.1
        have : sizeOf p < sizeOf (Err.collapsed p cs) := by simp; omega
        omega
      rw [hp]
      refine firstJoin_of_none fun c hc => ?_
      have h1 : sizeOf c < sizeOf cs := List.sizeOf_lt_of_mem hc
      have h2 : sizeOf cs < sizeOf (Err.collapsed p cs) := by simp
      exact ih c (by omega) (anyList_eq_false hm2.2 c hc)

theorem firstError_of_no_match {e : Err} (h : hasMatch e = false) : firstError e = none :=
  firstError_of_no_match_bounded (sizeOf e + 1) e (by omega) h

end Errdefs

namespace Errdefs

/-! ## Claim theorems -/

/-- C1: `Resolve` performs a depth-first search following the
single-cause (`Unwrap() error`) edge before any joined children, visiting
joined children left to right, with the first node matching a canonical
kind or sentinel winning; in particular a join listing K1 before K2
resolves to K1, and wrapping or joining a kind with untyped context never
changes the resolved result. -/
theorem resolve_dfs_order :
    (∀ (s : List Char) (e : Err), firstError (Err.wrap s e) = firstError e) ∧
    (∀ (cs₁ : List Err) (c v : Err) (cs₂ : List Err),
      (∀ x ∈ cs₁, firstError x = none) → firstError c = some v →
      firstError (Err.join (cs₁ ++ c :: cs₂)) = some v) ∧
    (∀ K1 K2 : Kind,
      Resolve (some (Err.join [Err.kind K1, Err.kind K2])) = some (Err.kind K1)) ∧
    (∀ (K : Kind) (s : List Char),
      Resolve (some (Err.wrap s (Err.kind K))) = some (Err.kind K)) ∧
    (∀ (K : Kind) (t : List Char),
      Resolve (some (Err.join [Err.msg t, Err.kind K])) = some (Err.kind K) ∧
      Resolve (some (Err.join [Err.kind K, Err.msg t])) = some (Err.kind K)) := by
  refine ⟨fun s e => rfl, ?_, fun K1 K2 => rfl, fun K s => rfl, fun K t => ⟨rfl, rfl⟩⟩
  intro cs₁ c v cs₂ h hc
  rw [firstError]
  exact firstJoin_append_of_none h hc cs₂

/-- Witness for C1: the join ordering clause at a concrete input. -/
theorem resolve_dfs_order_witness :
    (∀ x ∈ [Err.msg (str "untyped")], firstError x = none) ∧
    firstError (Err.join ([Err.msg (str "untyped")] ++
        Err.kind Kind.conflict :: [Err.kind Kind.notFound])) =
      some (Err.kind Kind.conflict) := by
  have h : ∀ x ∈ [Err.msg (str "untyped")], firstError x = none := by
    intro x hx
    rcases List.mem_singleton.mp hx with rfl
    rfl
  exact ⟨h, resolve_dfs_order.2.1 [Err.msg (str "untyped")] _ _ [Err.kind Kind.notFound] h rfl⟩

/-- C2: `Resolve` is total — `nil` maps to `nil`, every non-nil tree
resolves to exactly one value that is a canonical kind or a sentinel,
and a tree with no matching node resolves to `ErrUnknown`. -/
theorem resolve_total :
    Resolve none = none ∧
    (∀ e : Err, ∃ r : Err, Resolve (some e) = some r ∧ isCanonicalResult r = true) ∧
    (∀ e : Err, hasMatch e = false → Resolve (some e) = some (Err.kind Kind.unknown)) := by
  refine ⟨rfl, ?_, ?_⟩
  · intro e
    cases h : firstError e with
    | some v => exact ⟨v, by rw [Resolve, h], firstError_canonical h⟩
    | none => exact ⟨Err.kind Kind.unknown, by rw [Resolve, h], rfl⟩
  · intro e hm
    rw [Resolve, firstError_of_no_match hm]

/-- Witness for C2: an untyped leaf has no match and resolves to
`ErrUnknown`. -/
theorem resolve_total_witness :
    hasMatch (Err.msg (str "untyped")) = false ∧
    Resolve (some (Err.msg (str "untyped"))) = some (Err.kind Kind.unknown) :=
  ⟨rfl, resolve_total.2.2 (Err.msg (str "untyped")) rfl⟩

/-- C7: `FromHTTP` maps exactly the eleven tabled status codes to their
kinds and every other integer to an Unexpected-Status marker carrying
that code, and `FromHTTP (ToHTTP K)` is the identity on the tabled
kinds. -/
theorem fromHTTP_table_roundtrip :
    (FromHTTP 304 = Err.kind Kind.notModified ∧
     FromHTTP 400 = Err.kind Kind.invalidArgument ∧
     FromHTTP 401 = Err.kind Kind.unauthenticated ∧
     FromHTTP 403 = Err.kind Kind.permissionDenied ∧
     FromHTTP 404 = Err.kind Kind.notFound ∧
     FromHTTP 409 = Err.kind Kind.conflict ∧
     FromHTTP 412 = Err.kind Kind.failedPrecondition ∧
     FromHTTP 429 = Err.kind Kind.resourceExhausted ∧
     FromHTTP 500 = Err.kind Kind.internalErr ∧
     FromHTTP 501 = Err.kind Kind.notImplemented ∧
     FromHTTP 503 = Err.kind Kind.unavailable) ∧
    (∀ c : Int, c ∉ ([304, 400, 401, 403, 404, 409, 412, 429, 500, 501, 503] : List Int) →
      FromHTTP c = Err.unexpectedStatus c) ∧
    (∀ k ∈ [Kind.notFound, Kind.invalidArgument, Kind.conflict, Kind.failedPrecondition,
        Kind.unauthenticated, Kind.permissionDenied, Kind.notModified,
        Kind.resourceExhausted, Kind.internalErr, Kind.notImplemented, Kind.unavailable],
      FromHTTP (ToHTTP (Err.kind k)) = Err.kind k) := by
  refine ⟨⟨rfl, rfl, rfl, rfl, rfl, rfl, rfl, rfl, rfl, rfl, rfl⟩, ?_, ?_⟩
  · intro c hc
    simp only [List.mem_cons, List.not_mem_nil, or_false, not_or] at hc
    obtain ⟨h1, h2, h3, h4, h5, h6, h7, h8, h9, h10, h11⟩ := hc
    simp [FromHTTP, h1, h2, h3, h4, h5, h6, h7, h8, h9, h10, h11]
  · intro k hk
    fin_cases hk <;> rfl

/-- Witness for C7: the out-of-table code 418 and the NotFound round
trip. -/
theorem fromHTTP_table_roundtrip_witness :
    (418 : Int) ∉ ([304, 400, 401, 403, 404, 409, 412, 429, 500, 501, 503] : List Int) ∧
    FromHTTP 418 = Err.unexpectedStatus 418 ∧
    FromHTTP (ToHTTP (Err.kind Kind.notFound)) = Err.kind Kind.notFound :=
  ⟨by decide, fromHTTP_table_roundtrip.2.1 418 (by decide),
   fromHTTP_table_roundtrip.2.2 Kind.notFound (by decide)⟩

/-- C8 (code-bug evidence): the `Error()` switch of `errors.go` renders
the distinct kinds `ErrDataLoss` and `ErrUnauthenticated` with the same
description string `"unauthenticated"`. -/
theorem kindText_dataLoss_collision :
    errStr (Err.kind Kind.dataLoss) = str "unauthenticated" ∧
    errStr (Err.kind Kind.unauthenticated) = str "unauthenticated" ∧
    Kind.dataLoss ≠ Kind.unauthenticated :=
  ⟨rfl, rfl, by decide⟩

/-- C10: `stack.Join` returns nil whenever every non-nil argument is a
collapsible stack error — the non-collapsible primary list is empty, so
`joinErrors` discards the supplied stack errors entirely. -/
theorem stack_join_all_collapsible_nil (ft : List Char) (errs : List (Option Err))
    (h : ∀ e ∈ errs.filterMap id, isCollapsible e = true) :
    stackJoin ft errs = none := by
  have hfil : (errs.filterMap id).filter (fun e => !isCollapsible e) = [] := by
    refine List.filter_eq_nil_iff.mpr ?_
    intro a ha
    simp [h a ha]
  rw [stackJoin, joinErrors]
  simp only [hfil]

/-- Witness for C10: one non-nil stack-capture argument is discarded. -/
theorem stack_join_all_collapsible_nil_witness :
    (∀ e ∈ ([some (Err.stackNode (str "trace"))] : List (Option Err)).filterMap id,
      isCollapsible e = true) ∧
    stackJoin (str "fresh") [some (Err.stackNode (str "trace"))] = none := by
  have h : ∀ e ∈ ([some (Err.stackNode (str "trace"))] : List (Option Err)).filterMap id,
      isCollapsible e = true := by
    intro e he
    simp at he
    subst he
    rfl
  exact ⟨h, stack_join_all_collapsible_nil _ _ h⟩

end Errdefs

namespace Errdefs

/-! ### Node-level reduction lemmas for the membership testers -/

theorem errorsIs_kind (t : Target) (k : Kind) :
    errorsIs t (Err.kind k) = decide (t = Target.kindT k) := by
  simp [errorsIs, anyNode, nodeIs]

theorem errorsIs_wrap (t : Target) (s : List Char) (c : Err) :
    errorsIs t (Err.wrap s c) = errorsIs t c := by
  simp [errorsIs, anyNode, nodeIs]

theorem errorsIs_canceled (t : Target) :
    errorsIs t Err.canceledErr = decide (t = Target.canceledTgt) := by
  simp [errorsIs, anyNode, nodeIs]

theorem errorsIs_deadline (t : Target) :
    errorsIs t Err.deadlineErr = decide (t = Target.deadlineTgt) := by
  simp [errorsIs, anyNode, nodeIs]

theorem isInterface_kind (t : Tag) (k : Kind) : isInterface t (Err.kind k) = false := by
  simp [isInterface, anyNode, nodeHasTag]

theorem isInterface_wrap (t : Tag) (s : List Char) (c : Err) :
    isInterface t (Err.wrap s c) = isInterface t c := by
  simp [isInterface, anyNode, nodeHasTag]

theorem isInterface_canceled (t : Tag) : isInterface t Err.canceledErr = false := by
  simp [isInterface, anyNode, nodeHasTag]

theorem isInterface_deadline (t : Tag) : isInterface t Err.deadlineErr = false := by
  simp [isInterface, anyNode, nodeHasTag]

/-- `FromGRPC` on a direct status error, unfolded. -/
theorem fromGRPC_status_eq (c : Code) (d : List Char) :
    FromGRPC (some (Err.grpcStatus c d)) =
      some (if (rebaseMessage (fromGRPCcls c d) d).isEmpty then fromGRPCcls c d
            else Err.wrap (rebaseMessage (fromGRPCcls c d) d) (fromGRPCcls c d)) := rfl

/-- C6: `ToGRPC` sends everything matching FailedPrecondition, Conflict
or NotModified (not caught by an earlier case) to the single
FailedPrecondition code, and `FromGRPC` of that code classifies by the
exact/suffix message heuristic: conflict first, then not-modified, then
FailedPrecondition. -/
theorem grpc_fp_disambiguation :
    (∀ e : Err, isGRPCError e = false → IsInvalidArgument e = false →
      IsNotFound e = false → IsAlreadyExists e = false →
      (IsFailedPrecondition e || IsConflict e || IsNotModified e) = true →
      ToGRPC (some e) = some (Err.grpcStatus Code.failedPreconditionC (errStr e))) ∧
    (∀ m : List Char,
      (IsConflict ((FromGRPC (some (Err.grpcStatus Code.failedPreconditionC m))).getD
          (Err.msg [])) = true ↔
        (m = str "conflict" ∨ hasSuffix m (str ": conflict") = true)) ∧
      (¬ (m = str "conflict" ∨ hasSuffix m (str ": conflict") = true) →
        (IsNotModified ((FromGRPC (some (Err.grpcStatus Code.failedPreconditionC m))).getD
            (Err.msg [])) = true ↔
          (m = str "not modified" ∨ hasSuffix m (str ": not modified") = true))) ∧
      (¬ (m = str "conflict" ∨ hasSuffix m (str ": conflict") = true) →
        ¬ (m = str "not modified" ∨ hasSuffix m (str ": not modified") = true) →
        IsFailedPrecondition ((FromGRPC (some (Err.grpcStatus Code.failedPreconditionC m))).getD
          (Err.msg [])) = true)) := by
  constructor
  · intro e h0 h1 h2 h3 h4
    rw [ToGRPC]
    simp [h0, h1, h2, h3, h4]
  · intro m
    have hc' : (str ": " ++ kindText Kind.conflict) = str ": conflict" := by decide
    have hn' : (str ": " ++ kindText Kind.notModified) = str ": not modified" := by decide
    by_cases hc : m = kindText Kind.conflict ∨ hasSuffix m (str ": " ++ kindText Kind.conflict)
    · have hcls : fromGRPCcls Code.failedPreconditionC m = Err.kind Kind.conflict := by
        simp [fromGRPCcls, hc]
      have hcond : (m = str "conflict" ∨ hasSuffix m (str ": conflict") = true) := by
        rcases hc with h | h
        · exact Or.inl h
        · exact Or.inr (by rw [← hc']; exact h)
      refine ⟨?_, fun hne => absurd hcond hne, fun hne _ => absurd hcond hne⟩
      rw [fromGRPC_status_eq, hcls]
      by_cases hr : (rebaseMessage (Err.kind Kind.conflict) m).isEmpty
      · simp [hr, IsConflict, errorsIs_kind, isInterface_kind, hcond]
      · simp [hr, IsConflict, errorsIs_wrap, errorsIs_kind, isInterface_wrap,
          isInterface_kind, hcond]
    · have hcond : ¬ (m = str "conflict" ∨ hasSuffix m (str ": conflict") = true) := by
        intro h
        refine hc ?_
        rcases h with h | h
        · exact Or.inl h
        · exact Or.inr (by rw [hc']; exact h)
      by_cases hn : m = kindText Kind.notModified ∨
          hasSuffix m (str ": " ++ kindText Kind.notModified)
      · have hcls : fromGRPCcls Code.failedPreconditionC m = Err.kind Kind.notModified := by
          simp [fromGRPCcls, hc, hn]
        have hncond : (m = str "not modified" ∨ hasSuffix m (str ": not modified") = true) := by
          rcases hn with h | h
          · exact Or.inl h
          · exact Or.inr (by rw [← hn']; exact h)
        refine ⟨?_, fun _ => ?_, fun _ hne => absurd hncond hne⟩
        · rw [fromGRPC_status_eq, hcls]
          by_cases hr : (rebaseMessage (Err.kind Kind.notModified) m).isEmpty
          · simp [hr, IsConflict, errorsIs_kind, isInterface_kind, hcond]
          · simp [hr, IsConflict, errorsIs_wrap, errorsIs_kind, isInterface_wrap,
              isInterface_kind, hcond]
        · rw [fromGRPC_status_eq, hcls]
          by_cases hr : (rebaseMessage (Err.kind Kind.notModified) m).isEmpty
          · simp [hr, IsNotModified, errorsIs_kind, isInterface_kind, hncond]
          · simp [hr, IsNotModified, errorsIs_wrap, errorsIs_kind, isInterface_wrap,
              isInterface_kind, hncond]
      · have hncond : ¬ (m = str "not modified" ∨ hasSuffix m (str ": not modified") = true) := by
          intro h
          refine hn ?_
          rcases h with h | h
          · exact Or.inl h
          · exact Or.inr (by rw [hn']; exact h)
        have hcls : fromGRPCcls Code.failedPreconditionC m = Err.kind Kind.failedPrecondition := by
          simp [fromGRPCcls, hc, hn]
        refine ⟨?_, fun _ => ?_, fun _ _ => ?_⟩
        · rw [fromGRPC_status_eq, hcls]
          by_cases hr : (rebaseMessage (Err.kind Kind.failedPrecondition) m).isEmpty
          · simp [hr, IsConflict, errorsIs_kind, isInterface_kind, hcond]
          · simp [hr, IsConflict, errorsIs_wrap, errorsIs_kind, isInterface_wrap,
              isInterface_kind, hcond]
        · rw [fromGRPC_status_eq, hcls]
          by_cases hr : (rebaseMessage (Err.kind Kind.failedPrecondition) m).isEmpty
          · simp [hr, IsNotModified, errorsIs_kind, isInterface_kind, hncond]
          · simp [hr, IsNotModified, errorsIs_wrap, errorsIs_kind, isInterface_wrap,
              isInterface_kind, hncond]
        · rw [fromGRPC_status_eq, hcls]
          by_cases hr : (rebaseMessage (Err.kind Kind.failedPrecondition) m).isEmpty
          · simp [hr, IsFailedPrecondition, errorsIs_kind, isInterface_kind]
          · simp [hr, IsFailedPrecondition, errorsIs_wrap, errorsIs_kind, isInterface_wrap,
              isInterface_kind]

/-- Witness for C6 at concrete inputs. -/
theorem grpc_fp_disambiguation_witness :
    isGRPCError (Err.kind Kind.conflict) = false ∧
    (IsFailedPrecondition (Err.kind Kind.conflict) ||
      IsConflict (Err.kind Kind.conflict) || IsNotModified (Err.kind Kind.conflict)) = true ∧
    ToGRPC (some (Err.kind Kind.conflict)) =
      some (Err.grpcStatus Code.failedPreconditionC (str "conflict")) ∧
    IsFailedPrecondition ((FromGRPC (some (Err.grpcStatus Code.failedPreconditionC
        (str "whatever")))).getD (Err.msg [])) = true := by
  refine ⟨rfl, rfl, ?_, ?_⟩
  · exact grpc_fp_disambiguation.1 (Err.kind Kind.conflict) rfl rfl rfl rfl rfl
  · exact (grpc_fp_disambiguation.2 (str "whatever")).2.2 (by decide) (by decide)

end Errdefs

namespace Errdefs

/-! ### String lemmas for the gRPC round trip -/

theorem hasSuffix_append_self (m u : List Char) : hasSuffix (m ++ u) u = true := by
  rw [hasSuffix]
  exact List.isSuffixOf_iff_suffix.mpr (List.suffix_append m u)

theorem trimSuffix_append (m u : List Char) : trimSuffix (m ++ u) u = m := by
  rw [trimSuffix, if_pos]
  · rw [List.length_append, Nat.add_sub_cancel]
    exact List.take_left m u
  · exact hasSuffix_append_self m u

theorem append_ne_of_longer {u t : List Char} (m : List Char) (h : t.length < u.length) :
    m ++ u ≠ t := by
  intro he
  have hlen := congrArg List.length he
  rw [List.length_append] at hlen
  omega

theorem not_suffix_append {v u : List Char} (m : List Char)
    (hlen : v.length ≤ u.length) (hns : v.isSuffixOf u = false) :
    hasSuffix (m ++ u) v = false := by
  rw [hasSuffix]
  by_contra hcon
  rw [Bool.not_eq_false] at hcon
  have h1 : v <:+ m ++ u := List.isSuffixOf_iff_suffix.mp hcon
  have h2 : u <:+ m ++ u := List.suffix_append m u
  rcases List.suffix_or_suffix_of_suffix h1 h2 with h | h
  · rw [List.isSuffixOf_iff_suffix.mpr h] at hns
    cases hns
  · have hle : u.length ≤ v.length := h.sublist.length_le
    have heq : u = v := h.sublist.eq_of_length (by omega)
    subst heq
    rw [List.isSuffixOf_iff_suffix.mpr (List.suffix_refl u)] at hns
    cases hns

theorem rebase_append (cls : Err) (m : List Char) :
    rebaseMessage cls (m ++ (str ": " ++ errStr cls)) = m := by
  have hlen : (errStr cls).length < (str ": " ++ errStr cls).length := by
    rw [List.length_append]
    have h2 : (str ": ").length = 2 := rfl
    omega
  rw [rebaseMessage, if_neg (append_ne_of_longer m hlen), trimSuffix_append]

theorem all_digit_getLast {l : List Char} {c : Char} (h : l.getLast? = some c)
    (ha : l.all Char.isDigit = true) : c.isDigit = true :=
  List.all_eq_true.mp ha c (List.mem_of_mem_getLast? h)

theorem getLast?_of_suffix {s l : List Char} (h : s <:+ l) (hs : s ≠ []) :
    s.getLast? = l.getLast? := by
  obtain ⟨t, rfl⟩ := h
  exact (List.getLast?_append_of_ne_nil t hs).symm

theorem atoi_last_not_digit {l : List Char} {c : Char} (h : l.getLast? = some c)
    (hc : c.isDigit = false) : atoi l = none := by
  cases l with
  | nil => rfl
  | cons x rest =>
    rw [atoi]
    by_cases hx : x = '-' ∨ x = '+'
    · rw [if_pos hx]
      by_cases hrest : rest ≠ [] ∧ rest.all Char.isDigit
      · exfalso
        have hlast : (x :: rest).getLast? = rest.getLast? := by
          have : (x :: rest) = [x] ++ rest := rfl
          rw [this, List.getLast?_append_of_ne_nil _ hrest.1]
        rw [hlast] at h
        have := all_digit_getLast h hrest.2
        rw [this] at hc
        cases hc
      · rw [if_neg hrest]
    · rw [if_neg hx]
      by_cases hall : (x :: rest).all Char.isDigit
      · exfalso
        have := all_digit_getLast h hall
        rw [this] at hc
        cases hc
      · rw [if_neg hall]

theorem atoi_drop_none {l : List Char} {c : Char} (h : l.getLast? = some c)
    (hc : c.isDigit = false) (i : Nat) : atoi (l.drop i) = none := by
  cases hd : l.drop i with
  | nil => rfl
  | cons x rest =>
    have hsuf : (x :: rest) <:+ l := hd ▸ List.drop_suffix i l
    have hlast : (x :: rest).getLast? = some c := by
      rw [getLast?_of_suffix hsuf (by simp), h]
    exact atoi_last_not_digit hlast hc

theorem unexpectedRecover_none {d : List Char} {c : Char} (h : d.getLast? = some c)
    (hc : c.isDigit = false) : unexpectedRecover d = none := by
  rw [unexpectedRecover]
  cases hli : lastIndex d uspText with
  | none => rfl
  | some idx =>
    by_cases hidx : 0 < idx
    · simp only [hidx, if_true, atoi_drop_none h hc]
    · simp only [hidx, if_false]

end Errdefs

namespace Errdefs


theorem toGRPC_wrap_kind (K : Kind) (m : List Char) :
    ToGRPC (some (Err.wrap m (Err.kind K))) =
      some (Err.grpcStatus (grpcCodeOfKind K) (m ++ (str ": " ++ kindText K))) := by
  cases K <;>
    simp [ToGRPC, isGRPCError, statusFromError, asGrpcCode, grpcCodeOfKind,
      IsInvalidArgument, IsNotFound, IsAlreadyExists, IsFailedPrecondition, IsConflict,
      IsNotModified, IsUnavailable, IsNotImplemented, IsCanceled, IsDeadlineExceeded,
      IsUnauthorized, IsPermissionDenied, IsInternal, IsDataLoss, IsAborted, IsOutOfRange,
      IsResourceExhausted, IsUnknown,
      errorsIs_wrap, errorsIs_kind, errorsIs_canceled, errorsIs_deadline,
      isInterface_wrap, isInterface_kind, errStr, kindText, List.append_assoc]

theorem fromGRPCcls_wrap_kind (K : Kind) (m : List Char) :
    fromGRPCcls (grpcCodeOfKind K) (m ++ (str ": " ++ kindText K)) = Err.kind K := by
  cases K with
  | unknown =>
    have hlast : (m ++ (str ": " ++ kindText Kind.unknown)).getLast? = some 'n' := by
      rw [List.getLast?_append_of_ne_nil _ (by decide)]
      decide
    simp [fromGRPCcls, grpcCodeOfKind, unexpectedRecover_none hlast (by decide)]
  | conflict =>
    simp [fromGRPCcls, grpcCodeOfKind, hasSuffix_append_self]
  | notModified =>
    have ha : m ++ (str ": " ++ kindText Kind.notModified) ≠ kindText Kind.conflict :=
      append_ne_of_longer m (by decide)
    have hb : hasSuffix (m ++ (str ": " ++ kindText Kind.notModified))
        (str ": " ++ kindText Kind.conflict) = false :=
      not_suffix_append m (by decide) (by decide)
    simp [fromGRPCcls, grpcCodeOfKind, ha, hb, hasSuffix_append_self]
  | failedPrecondition =>
    have ha : m ++ (str ": " ++ kindText Kind.failedPrecondition) ≠ kindText Kind.conflict :=
      append_ne_of_longer m (by decide)
    have hb : hasSuffix (m ++ (str ": " ++ kindText Kind.failedPrecondition))
        (str ": " ++ kindText Kind.conflict) = false :=
      not_suffix_append m (by decide) (by decide)
    have hc : m ++ (str ": " ++ kindText Kind.failedPrecondition) ≠ kindText Kind.notModified :=
      append_ne_of_longer m (by decide)
    have hd : hasSuffix (m ++ (str ": " ++ kindText Kind.failedPrecondition))
        (str ": " ++ kindText Kind.notModified) = false :=
      not_suffix_append m (by decide) (by decide)
    simp [fromGRPCcls, grpcCodeOfKind, ha, hb, hc, hd]
  | invalidArgument => simp [fromGRPCcls, grpcCodeOfKind]
  | notFound => simp [fromGRPCcls, grpcCodeOfKind]
  | alreadyExists => simp [fromGRPCcls, grpcCodeOfKind]
  | permissionDenied => simp [fromGRPCcls, grpcCodeOfKind]
  | resourceExhausted => simp [fromGRPCcls, grpcCodeOfKind]
  | aborted => simp [fromGRPCcls, grpcCodeOfKind]
  | outOfRange => simp [fromGRPCcls, grpcCodeOfKind]
  | notImplemented => simp [fromGRPCcls, grpcCodeOfKind]
  | internalErr => simp [fromGRPCcls, grpcCodeOfKind]
  | unavailable => simp [fromGRPCcls, grpcCodeOfKind]
  | dataLoss => simp [fromGRPCcls, grpcCodeOfKind]
  | unauthenticated => simp [fromGRPCcls, grpcCodeOfKind]

theorem wrap_kind_roundtrip (K : Kind) (m : List Char) (hm : m ≠ []) :
    FromGRPC (ToGRPC (some (Err.wrap m (Err.kind K)))) = some (Err.wrap m (Err.kind K)) := by
  rw [toGRPC_wrap_kind, fromGRPC_status_eq, fromGRPCcls_wrap_kind]
  have ht : errStr (Err.kind K) = kindText K := rfl
  have hr : rebaseMessage (Err.kind K) (m ++ (str ": " ++ kindText K)) = m := by
    rw [← ht]
    exact rebase_append _ m
  rw [hr]
  have hne : m.isEmpty = false := by simpa [List.isEmpty_iff] using hm
  simp [hne]

theorem toGRPC_wrap_canceled (m : List Char) :
    ToGRPC (some (Err.wrap m Err.canceledErr)) =
      some (Err.grpcStatus Code.canceledC (m ++ (str ": " ++ str "context canceled"))) := by
  simp [ToGRPC, isGRPCError, statusFromError, asGrpcCode,
    IsInvalidArgument, IsNotFound, IsAlreadyExists, IsFailedPrecondition, IsConflict,
    IsNotModified, IsUnavailable, IsNotImplemented, IsCanceled,
    errorsIs_wrap, errorsIs_kind, errorsIs_canceled,
    isInterface_wrap, isInterface_kind, isInterface_canceled, errStr, List.append_assoc]

theorem toGRPC_wrap_deadline (m : List Char) :
    ToGRPC (some (Err.wrap m Err.deadlineErr)) =
      some (Err.grpcStatus Code.deadlineExceededC
        (m ++ (str ": " ++ str "context deadline exceeded"))) := by
  simp [ToGRPC, isGRPCError, statusFromError, asGrpcCode,
    IsInvalidArgument, IsNotFound, IsAlreadyExists, IsFailedPrecondition, IsConflict,
    IsNotModified, IsUnavailable, IsNotImplemented, IsCanceled, IsDeadlineExceeded,
    errorsIs_wrap, errorsIs_kind, errorsIs_canceled, errorsIs_deadline,
    isInterface_wrap, isInterface_kind, isInterface_canceled, isInterface_deadline,
    errStr, List.append_assoc]

theorem wrap_sentinel_roundtrip (m : List Char) (hm : m ≠ []) :
    FromGRPC (ToGRPC (some (Err.wrap m Err.canceledErr))) =
      some (Err.wrap m Err.canceledErr) ∧
    FromGRPC (ToGRPC (some (Err.wrap m Err.deadlineErr))) =
      some (Err.wrap m Err.deadlineErr) := by
  have hne : m.isEmpty = false := by simpa [List.isEmpty_iff] using hm
  constructor
  · rw [toGRPC_wrap_canceled, fromGRPC_status_eq]
    have hcls : fromGRPCcls Code.canceledC
        (m ++ (str ": " ++ str "context canceled")) = Err.canceledErr := rfl
    rw [hcls]
    have hr : rebaseMessage Err.canceledErr (m ++ (str ": " ++ str "context canceled")) = m :=
      rebase_append Err.canceledErr m
    rw [hr]
    simp [hne]
  · rw [toGRPC_wrap_deadline, fromGRPC_status_eq]
    have hcls : fromGRPCcls Code.deadlineExceededC
        (m ++ (str ": " ++ str "context deadline exceeded")) = Err.deadlineErr := rfl
    rw [hcls]
    have hr : rebaseMessage Err.deadlineErr
        (m ++ (str ": " ++ str "context deadline exceeded")) = m :=
      rebase_append Err.deadlineErr m
    rw [hr]
    simp [hne]


theorem kindIs_wrap_self (K : Kind) (m : List Char) :
    kindIs K (Err.wrap m (Err.kind K)) = true := by
  cases K <;>
    simp [kindIs, IsUnknown, IsInvalidArgument, IsNotFound, IsAlreadyExists,
      IsPermissionDenied, IsResourceExhausted, IsFailedPrecondition, IsConflict,
      IsNotModified, IsAborted, IsOutOfRange, IsNotImplemented, IsInternal,
      IsUnavailable, IsDataLoss, IsUnauthorized,
      errorsIs_wrap, errorsIs_kind, isInterface_wrap, isInterface_kind]

/-- C5 (amended to non-empty wrap messages): for every canonical kind
and both sentinels, bare or wrapped with a non-empty message,
`FromGRPC ∘ ToGRPC` returns the original value itself — hence the
membership tester for the kind holds of the result and the rendered
`Error()` text is unchanged.  (The amendment excludes the empty wrap
message, see the counterexample.) -/
theorem grpc_roundtrip :
    (∀ K : Kind, FromGRPC (ToGRPC (some (Err.kind K))) = some (Err.kind K) ∧
      kindIs K (Err.kind K) = true) ∧
    FromGRPC (ToGRPC (some Err.canceledErr)) = some Err.canceledErr ∧
    FromGRPC (ToGRPC (some Err.deadlineErr)) = some Err.deadlineErr ∧
    (∀ (K : Kind) (m : List Char), m ≠ [] →
      FromGRPC (ToGRPC (some (Err.wrap m (Err.kind K)))) = some (Err.wrap m (Err.kind K)) ∧
      kindIs K (Err.wrap m (Err.kind K)) = true) ∧
    (∀ m : List Char, m ≠ [] →
      FromGRPC (ToGRPC (some (Err.wrap m Err.canceledErr))) =
        some (Err.wrap m Err.canceledErr) ∧
      FromGRPC (ToGRPC (some (Err.wrap m Err.deadlineErr))) =
        some (Err.wrap m Err.deadlineErr)) := by
  refine ⟨?_, rfl, rfl, ?_, ?_⟩
  · intro K
    constructor
    · cases K <;> rfl
    · cases K <;> rfl
  · intro K m hm
    exact ⟨wrap_kind_roundtrip K m hm, kindIs_wrap_self K m⟩
  · intro m hm
    exact wrap_sentinel_roundtrip m hm

/-- C5 counterexample: with the degenerate empty wrap message the
decoded error's `Error()` text differs from the original's (the rebase
step strips the entire message `": not found"`). -/
theorem grpc_roundtrip_empty_cex :
    FromGRPC (ToGRPC (some (Err.wrap [] (Err.kind Kind.notFound)))) =
      some (Err.kind Kind.notFound) ∧
    errStr (Err.kind Kind.notFound) ≠ errStr (Err.wrap [] (Err.kind Kind.notFound)) :=
  ⟨rfl, by decide⟩

/-- Witness for C5 at a concrete non-empty message. -/
theorem grpc_roundtrip_witness :
    (str "x" : List Char) ≠ [] ∧
    FromGRPC (ToGRPC (some (Err.wrap (str "x") (Err.kind Kind.conflict)))) =
      some (Err.wrap (str "x") (Err.kind Kind.conflict)) ∧
    kindIs Kind.conflict (Err.wrap (str "x") (Err.kind Kind.conflict)) = true := by
  have h : (str "x" : List Char) ≠ [] := by decide
  exact ⟨h, (grpc_roundtrip.2.2.2.1 Kind.conflict (str "x") h).1,
    (grpc_roundtrip.2.2.2.1 Kind.conflict (str "x") h).2⟩

end Errdefs

namespace Errdefs


/-- C3 (code-bug evidence): decoding the encoded status of a three-way
join yields a `wrapErrors` proxy whose `Unwrap() []error` exposes no
children (the source builds `wrapErrors{error: parent}` without setting
`errs`), so the membership tester fails for every kind present in the
join even though the joined message text is preserved. -/
theorem detail_multijoin_lost :
    fromGRPCProto (toGRPCProto multiJoinCex) =
      Err.wrapErrorsNode (Err.msg (errStr multiJoinCex)) [] ∧
    unwrapChildren (fromGRPCProto (toGRPCProto multiJoinCex)) = [] ∧
    IsPermissionDenied (fromGRPCProto (toGRPCProto multiJoinCex)) = false ∧
    IsDataLoss (fromGRPCProto (toGRPCProto multiJoinCex)) = false ∧
    IsConflict (fromGRPCProto (toGRPCProto multiJoinCex)) = false ∧
    (fromGRPCProto (toGRPCProto multiJoinCex)) ≠ multiJoinCex ∧
    errStr (fromGRPCProto (toGRPCProto multiJoinCex)) = errStr multiJoinCex := by
  have hdec : fromGRPCProto (toGRPCProto multiJoinCex) =
      Err.wrapErrorsNode (Err.msg (errStr multiJoinCex)) [] := by
    simp [multiJoinCex, toGRPCProto, encodeEnv, encodeKids, encodeChildren,
      fromGRPCProto, decodeList, wrapFn, errStr, errStrList]
  refine ⟨hdec, ?_, ?_, ?_, ?_, ?_, ?_⟩
  · rw [hdec]; rfl
  · rw [hdec]
    simp [IsPermissionDenied, errorsIs, isInterface, anyNode, anyList, nodeIs, nodeHasTag]
  · rw [hdec]
    simp [IsDataLoss, errorsIs, isInterface, anyNode, anyList, nodeIs, nodeHasTag]
  · rw [hdec]
    simp [IsConflict, errorsIs, isInterface, anyNode, anyList, nodeIs, nodeHasTag]
  · rw [hdec]
    intro hcon
    rw [multiJoinCex] at hcon
    cases hcon
  · rw [hdec]
    rfl

/-- C4 (code-bug evidence): the first detail the encoder emits for
`ErrNotFound` is the marshalled status snapshot (code and message), not
a codec serialization of the error value; consequently the decoder can
never recover a live error from detail #0 and keeps the message-only
leaf, losing the kind. -/
theorem detail_zero_is_status_snapshot :
    (toGRPCProto (Err.kind Kind.notFound)).details =
      [Env.mk Code.notFoundC (str "not found") []] ∧
    fromGRPCProto (toGRPCProto (Err.kind Kind.notFound)) = Err.msg (str "not found") ∧
    IsNotFound (fromGRPCProto (toGRPCProto (Err.kind Kind.notFound))) = false ∧
    IsNotFound (Err.kind Kind.notFound) = true := by
  refine ⟨?_, ?_, ?_, rfl⟩
  · have hec : errorCode (Err.kind Kind.notFound) = Code.notFoundC := rfl
    simp [toGRPCProto, hec, encodeEnv, encodeKids, Env.details, errStr, kindText]
  · simp [toGRPCProto, encodeEnv, encodeKids, fromGRPCProto, errStr, kindText]
  · have hdec : fromGRPCProto (toGRPCProto (Err.kind Kind.notFound)) =
        Err.msg (str "not found") := by
      simp [toGRPCProto, encodeEnv, encodeKids, fromGRPCProto, errStr, kindText]
    rw [hdec]
    simp [IsNotFound, errorsIs, isInterface, anyNode, nodeIs, nodeHasTag]

theorem errStrListNC_eq_filter (cs : List Err) :
    errStrListNC cs = errStrList (cs.filter (fun c => !isCollapsible c)) := by
  induction cs with
  | nil => rfl
  | cons c rest ih =>
    by_cases hc : isCollapsible c <;>
      simp [errStrListNC, List.filter_cons, hc, ih, errStrList]

theorem errStrListNC_append (a b : List Err) :
    errStrListNC (a ++ b) = errStrListNC a ++ errStrListNC b := by
  induction a with
  | nil => rfl
  | cons c rest ih =>
    by_cases hc : isCollapsible c <;> simp [errStrListNC, hc, ih]

/-- C9: joining an error that already carries a stack capture with a
fresh capture leaves the default `Error()` text unchanged, the default
formatting of the package's `joinError` renders exactly the
non-collapsible members, and appending a collapsible capture to a join
of non-collapsible members leaves its `Error()` text unchanged. -/
theorem stack_join_collapsed_text :
    (∀ (e : Err) (ft ft2 : List Char), hasLocalStackTrace e = true →
      Option.map errStr (stackJoin ft [some e]) =
      Option.map errStr (stackJoin ft2 [some e, some (Err.stackNode ft2)])) ∧
    (∀ cs : List Err,
      errStrListNC cs = errStrList (cs.filter (fun c => !isCollapsible c))) ∧
    (∀ (cs : List Err) (tr : List Char), (∀ c ∈ cs, isCollapsible c = false) →
      errStr (Err.joinErrorNode cs) =
        errStr (Err.joinErrorNode (cs ++ [Err.stackNode tr]))) := by
  refine ⟨?_, errStrListNC_eq_filter, ?_⟩
  · intro e ft ft2 h
    by_cases hc : isCollapsible e
    · have hl : stackJoin ft [some e] = none := by
        rw [stackJoin, joinErrors]
        simp [hc]
      have hr : stackJoin ft2 [some e, some (Err.stackNode ft2)] = none := by
        rw [stackJoin, joinErrors]
        have hs : isCollapsible (Err.stackNode ft2) = true := rfl
        simp [List.filter_cons, hc, hs]
      rw [hl, hr]
    · have hl : stackJoin ft [some e] = some e := by
        rw [stackJoin, joinErrors]
        simp [hc, h]
      have hr : stackJoin ft2 [some e, some (Err.stackNode ft2)] =
          some (Err.collapsed e [Err.stackNode ft2]) := by
        rw [stackJoin, joinErrors]
        have hs : isCollapsible (Err.stackNode ft2) = true := rfl
        simp [List.filter_cons, hc, hs, h, CollapsedError]
      rw [hl, hr]
      rfl
  · intro cs tr _
    rw [errStr, errStr, errStrListNC_append]
    have hs : errStrListNC [Err.stackNode tr] = [] := rfl
    rw [hs, List.append_nil]

/-- Witness for C9 at concrete inputs. -/
theorem stack_join_collapsed_text_witness :
    hasLocalStackTrace
      (Err.collapsed (Err.msg (str "some error")) [Err.stackNode (str "T")]) = true ∧
    Option.map errStr (stackJoin (str "F")
      [some (Err.collapsed (Err.msg (str "some error")) [Err.stackNode (str "T")])]) =
    Option.map errStr (stackJoin (str "G")
      [some (Err.collapsed (Err.msg (str "some error")) [Err.stackNode (str "T")]),
       some (Err.stackNode (str "G"))]) ∧
    (∀ c ∈ [Err.msg (str "a")], isCollapsible c = false) ∧
    errStr (Err.joinErrorNode [Err.msg (str "a")]) =
      errStr (Err.joinErrorNode ([Err.msg (str "a")] ++ [Err.stackNode (str "T")])) := by
  have h1 : hasLocalStackTrace
      (Err.collapsed (Err.msg (str "some error")) [Err.stackNode (str "T")]) = true := rfl
  have h3 : ∀ c ∈ [Err.msg (str "a")], isCollapsible c = false := by
    intro c hcm
    rcases List.mem_singleton.mp hcm with rfl
    rfl
  exact ⟨h1, stack_join_collapsed_text.1 _ (str "F") (str "G") h1, h3,
    stack_join_collapsed_text.2.2 [Err.msg (str "a")] (str "T") h3⟩

end Errdefs
